import Mathlib

set_option maxHeartbeats 1000000
set_option maxRecDepth 4096

unseal Rat.ofScientific

/-!
Verification development for the Community Resources Finder web application
(Georges River Libraries). The definitions below are shallow embeddings of
the JavaScript source: the sanitizer object of `SecurityManager`
(security-implementation.js), the `validatePartnerData` validator, the
filter inside `updateDisplay`, the `generateQrCode` helper (script.js),
and the service-worker `activate` handler (service-worker.js). Browser
built-ins that are not part of the repository (the WHATWG `URL`
constructor, the third-party QR encoder and the canvas API) are modelled
abstractly as parameters, so every theorem quantifies over their possible
behaviours.
-/

/-- A JavaScript value reaching one of the sanitizer functions: either a
string, or a value of any other dynamic type. The sanitizers only inspect
`typeof input === "string"`, so one constructor for all non-strings is a
faithful model. -/
inductive JsValue where
  | str (s : String)
  | other
deriving DecidableEq

/-- Modelled from the spec: the observable result of the browser URL
constructor `new URL(s)` (a platform built-in, not code of this
repository) - its `protocol` component (scheme followed by a colon, e.g.
`"https:"`) and the canonical string form returned by `toString()`
(the `href`). A failed parse is `none` (the constructor throws). -/
structure ParsedURL where
  protocol : String
  href : String
deriving DecidableEq

/-- Embedding of `sanitizer.sanitizeURL` (security-implementation.js,
lines 165-178): non-string input gives the empty string; otherwise parse
with the URL constructor (modelled by the `parseURL` parameter), return
the empty string if parsing throws or the protocol is not `http:` or
`https:`, and the canonical string form otherwise. -/
def sanitizeURL (parseURL : String → Option ParsedURL) : JsValue → String
  | JsValue.str url =>
    match parseURL url with
    | some parsed =>
      if ["http:", "https:"].contains parsed.protocol then parsed.href else ""
    | none => ""
  | JsValue.other => ""

/-- Embedding of `sanitizer.sanitizeEmail`: the regular expression
`^[^\s@]+@[^\s@]+\.[^\s@]+$`. `jsWhitespace` models the characters the
`\s` class can match in the strings at hand (ASCII whitespace and
no-break space). -/
def jsWhitespace (c : Char) : Bool :=
  c == ' ' || c == '\t' || c == '\n' || c == '\r' ||
  c == '\x0b' || c == '\x0c' || c == ' '

/-- One character of the `[^\s@]` class. -/
def emailChar (c : Char) : Bool :=
  !jsWhitespace c && c != '@'

/-- Split a character list at the first occurrence of `c`; `none` when `c`
does not occur. -/
def splitAtFirst (c : Char) : List Char → Option (List Char × List Char)
  | [] => none
  | x :: xs =>
    if x == c then some ([], xs)
    else
      match splitAtFirst c xs with
      | some (a, b) => some (x :: a, b)
      | none => none

/-- The part of the email regular expression before the `@`:
`[^\s@]+`. -/
def emailLocalOk (cs : List Char) : Bool :=
  !cs.isEmpty && cs.all emailChar

/-- The part of the email regular expression after the `@`:
`[^\s@]+\.[^\s@]+` anchored to the end. Because `.` itself belongs to the
`[^\s@]` class, the pattern matches exactly when the remainder is
non-space, `@`-free, and contains a dot that is neither its first nor its
last character. -/
def emailDomainOk (cs : List Char) : Bool :=
  !cs.isEmpty && cs.all emailChar && ((cs.drop 1).dropLast).contains '.'

/-- Embedding of the test of `/^[^\s@]+@[^\s@]+\.[^\s@]+$/` used both by
`sanitizer.sanitizeEmail` and by `validatePartnerData`. Since `[^\s@]`
excludes `@`, a match splits the string at its first (and only) `@`. -/
def emailRegexTest (s : String) : Bool :=
  match splitAtFirst '@' s.data with
  | some (locPart, domPart) => emailLocalOk locPart && emailDomainOk domPart
  | none => false

/-- The character class `[<>]` removed first by `sanitizeText`. -/
def removeAngle (cs : List Char) : List Char :=
  cs.filter (fun c => c != '<' && c != '>')

/-- Case-insensitive match of a lowercase ASCII pattern at the head of the
input (the `i` flag of `/javascript:/gi`); returns the input after the
match. -/
def matchCI : List Char → List Char → Option (List Char)
  | [], rest => some rest
  | _ :: _, [] => none
  | p :: ps, c :: cs => if c.toLower == p then matchCI ps cs else none

theorem matchCI_length {ps cs rest : List Char}
    (h : matchCI ps cs = some rest) : rest.length + ps.length = cs.length := by
  induction ps generalizing cs rest with
  | nil => simp [matchCI] at h; simp [h]
  | cons p ps ih =>
    cases cs with
    | nil => simp [matchCI] at h
    | cons c cs =>
      simp only [matchCI] at h
      split at h
      · have := ih h
        simp [List.length_cons]
        omega
      · exact absurd h (by simp)

theorem matchCI_suffix {ps cs rest : List Char}
    (h : matchCI ps cs = some rest) : rest.Sublist cs := by
  induction ps generalizing cs rest with
  | nil => simp [matchCI] at h; simp [h]
  | cons p ps ih =>
    cases cs with
    | nil => simp [matchCI] at h
    | cons c cs =>
      simp only [matchCI] at h
      split at h
      · exact List.Sublist.cons c (ih h)
      · exact absurd h (by simp)

/-- The pattern of `/javascript:/gi` as a character list. -/
def jsProtoPat : List Char := "javascript:".data

/-- The fuelled scan behind `stripJsProto`. Each step consumes at least
one character, so fuel equal to the input length always suffices and the
zero-fuel branch is never reached from `stripJsProto`. -/
def stripJsProtoAux : Nat → List Char → List Char
  | 0, cs => cs
  | _ + 1, [] => []
  | n + 1, c :: rest =>
    match matchCI jsProtoPat (c :: rest) with
    | some rest' => stripJsProtoAux n rest'
    | none => c :: stripJsProtoAux n rest

/-- Global replacement of `/javascript:/gi` by the empty string: a left to
right scan that removes each non-overlapping case-insensitive occurrence
of `javascript:`. -/
def stripJsProto (cs : List Char) : List Char :=
  stripJsProtoAux cs.length cs

/-- A JavaScript word character `\w`, that is `[A-Za-z0-9_]`. -/
def wordChar (c : Char) : Bool :=
  c.isAlpha || c.isDigit || c == '_'

/-- Match of `/on\w+=/i` at the head of the input: `o` and `n` in either
case, then a non-empty maximal run of word characters, then `=` (since `=`
is not a word character, the greedy `\w+` never backtracks). Returns the
input after the match. -/
def matchOnHandler : List Char → Option (List Char)
  | c1 :: c2 :: rest =>
    if (c1 == 'o' || c1 == 'O') && (c2 == 'n' || c2 == 'N') then
      let run := rest.takeWhile wordChar
      let after := rest.dropWhile wordChar
      if run.isEmpty then none
      else
        match after with
        | '=' :: tail => some tail
        | _ => none
    else none
  | _ => none

theorem matchOnHandler_suffix {cs tail : List Char}
    (h : matchOnHandler cs = some tail) : tail.Sublist cs ∧ tail.length < cs.length := by
  match cs with
  | [] => simp [matchOnHandler] at h
  | [c] => simp [matchOnHandler] at h
  | c1 :: c2 :: rest =>
    simp only [matchOnHandler] at h
    split at h
    · split at h
      · exact absurd h (by simp)
      · split at h
        · rename_i t heq
          obtain rfl : t = tail := Option.some.inj h
          have hsub2 : (rest.dropWhile wordChar).Sublist rest :=
            List.dropWhile_sublist wordChar
          have hsub : t.Sublist (rest.dropWhile wordChar) := by
            rw [heq]; exact List.sublist_cons_self '=' t
          have hdl : (rest.dropWhile wordChar).length = t.length + 1 := by
            rw [heq]; simp
          have hle := hsub2.length_le
          constructor
          · exact (hsub.trans hsub2).trans ((List.sublist_cons_self c2 rest).trans
              (List.sublist_cons_self c1 (c2 :: rest)))
          · simp only [List.length_cons]
            omega
        · exact absurd h (by simp)
    · exact absurd h (by simp)

/-- The fuelled scan behind `stripOnHandlers`; by
`matchOnHandler_suffix` every match strictly shrinks the input, so fuel
equal to the input length always suffices. -/
def stripOnHandlersAux : Nat → List Char → List Char
  | 0, cs => cs
  | _ + 1, [] => []
  | n + 1, c :: rest =>
    match matchOnHandler (c :: rest) with
    | some tail => stripOnHandlersAux n tail
    | none => c :: stripOnHandlersAux n rest

/-- Global replacement of `/on\w+=/gi` by the empty string: a left to
right scan removing each occurrence. -/
def stripOnHandlers (cs : List Char) : List Char :=
  stripOnHandlersAux cs.length cs

/-- Both-ends whitespace trim, the final `.trim()` of `sanitizeText`. -/
def trimChars (cs : List Char) : List Char :=
  ((cs.dropWhile Char.isWhitespace).reverse.dropWhile Char.isWhitespace).reverse

/-- Embedding of `sanitizer.sanitizeText` (security-implementation.js,
lines 197-206): non-string input gives the empty string; otherwise remove
angle brackets, then every case-insensitive `javascript:`, then every
case-insensitive `on<word>=`, and trim whitespace. -/
def sanitizeText : JsValue → String
  | JsValue.str s =>
    String.mk (trimChars (stripOnHandlers (stripJsProto (removeAngle s.data))))
  | JsValue.other => ""

/-- One well-formed organisation record of the dataset, with the fields
documented by the JSDoc schema of `validatePartnerData` (script.js): the
shape every object in the hardcoded `partners` array has. Rational
numbers stand for the JavaScript number type (only identity and zero
tests are ever performed on them). The multilingual `description` object
is a key-value list with unique keys. -/
structure Organisation where
  name : String
  lat : Rat
  lng : Rat
  community : String
  languages : List String
  description : List (String × String)
  address : String
  phone : String
  email : String
  website : String
deriving DecidableEq

/-- Embedding of the filter inside `updateDisplay` (script.js, lines
918-922): keep an entry when its `languages` array contains the selected
language or contains `"English"`, and its `community` equals the selected
community. -/
def filterPartners (partners : List Organisation)
    (selectedLanguage selectedCommunity : String) : List Organisation :=
  partners.filter fun p =>
    (p.languages.contains selectedLanguage || p.languages.contains "English") &&
    (p.community == selectedCommunity)

/-- Lookup of a property on a JavaScript object modelled as a key-value
list with unique keys: `none` is `undefined`. -/
def jsLookup (d : List (String × String)) (k : String) : Option String :=
  (d.find? (fun kv => kv.1 == k)).map (fun kv => kv.2)

/-- Embedding of the description choice in `updateDisplay` (script.js,
line 937): `partner.description[selectedLanguage] ||
partner.description["English"]`. The JavaScript `||` falls through to the
English entry whenever the selected-language value is falsy, that is
missing or the empty string. -/
def chooseDescription (d : List (String × String))
    (selectedLanguage : String) : Option String :=
  match jsLookup d selectedLanguage with
  | some s => if s ≠ "" then some s else jsLookup d "English"
  | none => jsLookup d "English"

/-- The DOM element returned by `generateQrCode`: either the QR image
(its `src` data URL and `alt` text) or the fallback placeholder `div`
(its text content and its `title` attribute). -/
inductive QrElement where
  | img (src alt : String)
  | placeholderDiv (textContent title : String)
deriving DecidableEq

/-- The placeholder branch of `generateQrCode` (script.js, lines
813-831): a `div` with text `QR Code` and the original raw URL inside its
`title` attribute. -/
def qrPlaceholder (url : String) : QrElement :=
  QrElement.placeholderDiv "QR Code" ("QR code for " ++ url)

/-- Embedding of `generateQrCode` (script.js, lines 737-833), on the path
where the security manager is available. The third-party `qrcode`
encoder, the canvas drawing and `canvas.toDataURL` are platform or
third-party code outside this repository; they are modelled by the
`renderQR` parameter, which returns the PNG data URL, or `none` when any
step throws (including the library being absent). Every `throw` inside
the `try` block lands in the `catch` branch, which returns the
placeholder; the function is total and never propagates an exception. -/
def generateQrCode (parseURL : String → Option ParsedURL)
    (renderQR : String → Option String) (url : String) : QrElement :=
  let sanitizedUrl := sanitizeURL parseURL (JsValue.str url)
  if sanitizedUrl == "" then qrPlaceholder url
  else
    match renderQR sanitizedUrl with
    | some dataURL => QrElement.img dataURL ("QR code for " ++ sanitizedUrl)
    | none => qrPlaceholder url

/-- The current cache version tag of service-worker.js, line 9. -/
def CACHE_NAME : String := "community-resources-v1"

/-- Deleting one named cache from the origin cache storage, modelled as a
list of cache names (`caches.delete(name)` removes the entry with that
name). -/
def cacheDelete (storage : List String) (name : String) : List String :=
  storage.filter (fun c => !(c == name))

/-- Embedding of the `activate` handler (service-worker.js, lines 33-45):
enumerate all cache names, keep those different from `CACHE_NAME`, and
delete each of them from storage. -/
def activateHandler (storage : List String) : List String :=
  ((storage.filter (fun cacheName => !(cacheName == CACHE_NAME)))).foldl
    cacheDelete storage

/-- A possibly malformed partner object as `validatePartnerData` receives
it: every property may be absent (`none` is the JavaScript `undefined`).
Coordinates are numbers, `languages` an array of strings, `description`
an object from language tag to text. -/
structure Partner where
  name : Option String := none
  lat : Option Rat := none
  lng : Option Rat := none
  community : Option String := none
  languages : Option (List String) := none
  description : Option (List (String × String)) := none
  address : Option String := none
  phone : Option String := none
  email : Option String := none
  website : Option String := none
deriving DecidableEq

/-- JavaScript truthiness of a possibly absent string: `undefined` and
the empty string are falsy. -/
def truthyStr : Option String → Bool
  | some s => s != ""
  | none => false

/-- JavaScript truthiness of a possibly absent number: `undefined` and
`0` are falsy. -/
def truthyNum : Option Rat → Bool
  | some q => q != 0
  | none => false

/-- JavaScript truthiness of a possibly absent array: arrays are objects
and always truthy. -/
def truthyArr : Option (List String) → Bool
  | some _ => true
  | none => false

/-- JavaScript truthiness of a possibly absent object. -/
def truthyObj : Option (List (String × String)) → Bool
  | some _ => true
  | none => false

/-- String interpolation of a possibly absent string, as in a template
literal: `undefined` prints as `"undefined"`. -/
def jsToStr : Option String → String
  | some s => s
  | none => "undefined"

/-- The expression `partner.name || "Unknown"` used in the
missing-field messages. -/
def nameOrUnknown (p : Partner) : String :=
  match p.name with
  | some s => if s != "" then s else "Unknown"
  | none => "Unknown"

/-- The 13 valid community categories (script.js, lines 405-410). -/
def validCommunities : List String :=
  ["First Nations", "Arts", "Youth", "Health & Wellbeing",
   "Carers Support Services", "Children & Families", "Community Support",
   "Disability Services", "Domestic Violence", "Food & Emergency Support",
   "Government Departments", "LGBTQIA+", "Multicultural"]

/-- The message prefix `Partner ${index} (...)` shared by all per-entry
messages. -/
def entryTag (i : Nat) (who : String) : String :=
  "Partner " ++ toString i ++ " (" ++ who ++ "): "

/-- The required-field presence checks in their source order (script.js,
line 412), paired with the JavaScript truthiness of `partner[field]`. -/
def fieldChecks (p : Partner) : List (String × Bool) :=
  [("name", truthyStr p.name), ("lat", truthyNum p.lat),
   ("lng", truthyNum p.lng), ("community", truthyStr p.community),
   ("languages", truthyArr p.languages),
   ("description", truthyObj p.description),
   ("address", truthyStr p.address), ("phone", truthyStr p.phone),
   ("email", truthyStr p.email), ("website", truthyStr p.website)]

/-- One `Missing ${field}` error per falsy required field, in field
order. -/
def requiredFieldErrors (i : Nat) (p : Partner) : List String :=
  (fieldChecks p).filterMap fun fc =>
    if fc.2 then none
    else some (entryTag i (nameOrUnknown p) ++ "Missing " ++ fc.1)

/-- `typeof partner.lat === "number" && typeof partner.lng === "number"`:
in this model a coordinate is a number exactly when the property is
present. -/
def coordsAreNumbers (p : Partner) : Bool :=
  p.lat.isSome && p.lng.isSome

/-- `validCommunities.includes(partner.community)`. -/
def communityValid (p : Partner) : Bool :=
  match p.community with
  | some c => validCommunities.contains c
  | none => false

/-- `partner.email && !emailRegex.test(partner.email)`: a format error is
raised only when the property is truthy. -/
def emailFormatBad (p : Partner) : Bool :=
  match p.email with
  | some e => e != "" && !emailRegexTest e
  | none => false

/-- `partner.website` truthy and `new URL(partner.website)` throwing;
the URL constructor is the `websiteParses` parameter. -/
def websiteBad (websiteParses : String → Bool) (p : Partner) : Bool :=
  match p.website with
  | some w => w != "" && !websiteParses w
  | none => false

/-- `!partner.description || !partner.description.English`. -/
def englishDescriptionOk (p : Partner) : Bool :=
  match p.description with
  | some d => truthyStr (jsLookup d "English")
  | none => false

/-- All errors contributed by the entry at index `i`, in source order:
missing required fields, invalid coordinates, invalid community, invalid
email format, invalid website URL, missing English description
(script.js, lines 414-455). -/
def entryErrors (websiteParses : String → Bool) (i : Nat) (p : Partner) :
    List String :=
  requiredFieldErrors i p ++
  (if coordsAreNumbers p then []
   else [entryTag i (jsToStr p.name) ++ "Invalid coordinates"]) ++
  (if communityValid p then []
   else [entryTag i (jsToStr p.name) ++ "Invalid community '" ++
     jsToStr p.community ++ "'"]) ++
  (if emailFormatBad p then [entryTag i (jsToStr p.name) ++ "Invalid email format"]
   else []) ++
  (if websiteBad websiteParses p then
     [entryTag i (jsToStr p.name) ++ "Invalid website URL"]
   else []) ++
  (if englishDescriptionOk p then []
   else [entryTag i (jsToStr p.name) ++ "Missing English description"])

/-- The warning contributed by the entry at index `i`:
`!Array.isArray(partner.languages) || partner.languages.length === 0`. -/
def entryWarnings (i : Nat) (p : Partner) : List String :=
  match p.languages with
  | some l => if l.length == 0 then
      [entryTag i (jsToStr p.name) ++ "No languages specified"] else []
  | none => [entryTag i (jsToStr p.name) ++ "No languages specified"]

/-- The `partners.forEach((partner, index) => ...)` error accumulation,
starting at index `k`. -/
def collectErrors (websiteParses : String → Bool) :
    Nat → List Partner → List String
  | _, [] => []
  | k, p :: ps => entryErrors websiteParses k p ++
      collectErrors websiteParses (k + 1) ps

/-- The per-entry warning accumulation, starting at index `k`. -/
def collectWarnings : Nat → List Partner → List String
  | _, [] => []
  | k, p :: ps => entryWarnings k p ++ collectWarnings (k + 1) ps

/-- `names.indexOf(name)` on the array of raw `name` values (strict
equality treats two `undefined` values as equal). -/
def jsIndexOf (names : List (Option String)) (n : Option String) : Nat :=
  names.indexOf n

/-- `names.filter((name, index) => names.indexOf(name) !== index)`,
implemented with an explicit running index. -/
def dupNamesAux (allNames : List (Option String)) :
    Nat → List (Option String) → List (Option String)
  | _, [] => []
  | i, n :: rest =>
    (if jsIndexOf allNames n ≠ i then [n] else []) ++
      dupNamesAux allNames (i + 1) rest

/-- The `duplicates` array of `validatePartnerData` (script.js, line
459). -/
def dupNames (names : List (Option String)) : List (Option String) :=
  dupNamesAux names 0 names

/-- The fuelled recursion behind `jsSetDedup`; each step strictly shrinks
the list, so fuel equal to the input length always suffices. -/
def jsSetDedupAux : Nat → List (Option String) → List (Option String)
  | 0, l => l
  | _ + 1, [] => []
  | n + 1, x :: xs =>
    if xs.contains x then x :: jsSetDedupAux n (xs.filter (fun y => !(y == x)))
    else x :: jsSetDedupAux n xs

/-- `[...new Set(duplicates)]`: de-duplication keeping first
occurrences. -/
def jsSetDedup (l : List (Option String)) : List (Option String) :=
  jsSetDedupAux l.length l

/-- `Array.prototype.join(", ")` on possibly absent strings: `undefined`
joins as the empty string. -/
def joinNames (l : List (Option String)) : String :=
  String.intercalate ", " (l.map fun o => o.getD "")

/-- The aggregated duplicate warning prefix. -/
def dupWarningPrefix : String := "Duplicate names found: "

/-- The result object `{ errors, warnings, isValid }`. -/
structure ValidationResult where
  errors : List String
  warnings : List String
  isValid : Bool
deriving DecidableEq

/-- Embedding of `validatePartnerData` (script.js, lines 401-465). The
browser URL constructor used on `partner.website` is the
`websiteParses` parameter. -/
def validatePartnerData (websiteParses : String → Bool)
    (partners : List Partner) : ValidationResult :=
  let errors := collectErrors websiteParses 0 partners
  let perEntryWarnings := collectWarnings 0 partners
  let names := partners.map Partner.name
  let duplicates := dupNames names
  let warnings :=
    if duplicates.length > 0 then
      perEntryWarnings ++
        [dupWarningPrefix ++ joinNames (jsSetDedup duplicates)]
    else perEntryWarnings
  { errors := errors, warnings := warnings,
    isValid := errors.length == 0 }

/-- Modelled from the spec: `website` (if present) parses as an absolute
URL under the browser URL constructor, which is a platform built-in and
not code of this repository. The model accepts a string that starts with
a scheme (an ASCII letter followed by letters, digits, `+`, `-` or `.`)
and a colon with a non-empty remainder. -/
def absoluteURLSyntaxOk (s : String) : Bool :=
  match splitAtFirst ':' s.data with
  | some (scheme, rest) =>
    (match scheme with
     | [] => false
     | c :: cs => c.isAlpha &&
         cs.all (fun d => d.isAlpha || d.isDigit || d == '+' || d == '-' || d == '.')) &&
    !rest.isEmpty
  | none => false

/-- The hardcoded `partners` dataset (script.js, lines 71-368), all 18
entries with their literal field values. -/
def partners : List Partner :=
  [{ name := some "Kurranulla Aboriginal Corporation",
     lat := some (-34.053 : Rat), lng := some (151.06 : Rat),
     community := some "First Nations",
     languages := some ["English"],
     description := some
       [("English", "Provides services and programs for the local Aboriginal community."),
        ("Mandarin", "为当地原住民社区提供服务和项目。"),
        ("Cantonese", "為當地原住民社區提供服務和計劃。"),
        ("Nepali", "स्थानीय आदिवासी समुदायका लागि सेवा र कार्यक्रमहरू प्रदान गर्दछ।"),
        ("Italian", "Fornisce servizi e programmi per la comunità aborigena locale."),
        ("Greek", "Παρέχει υπηρεσίες και προγράμματα για την τοπική κοινότητα των Αβοριγίνων.")],
     address := some "15 Jannali Avenue, Jannali",
     phone := some "(02) 9528 0287",
     email := some "contact@kurranulla.org.au",
     website := some "https://www.kurranulla.org.au/" },
   { name := some "Metropolitan Local Aboriginal Land Council",
     lat := some (-33.874 : Rat), lng := some (151.21 : Rat),
     community := some "First Nations",
     languages := some ["English"],
     description := some
       [("English", "Advocates for Aboriginal people in the Sydney metropolitan area."),
        ("Mandarin", "为悉尼大都会区的原住民提供支持。")],
     address := some "Level 2, 150 Elizabeth St Sydney",
     phone := some "(02) 8394 9666",
     email := some "metrolalc@metrolalc.org.au",
     website := some "https://metrolalc.org.au/" },
   { name := some "3Bridges Burrbangana Program",
     lat := some (-33.973 : Rat), lng := some (151.09 : Rat),
     community := some "First Nations",
     languages := some ["English"],
     description := some
       [("English", "Youth mentoring and indigenous learning programs."),
        ("Mandarin", "青年辅导和土著学习项目。")],
     address := some "643A King Georges Road, Penshurst",
     phone := some "1300 327 434",
     email := some "admin@3bridges.org.au",
     website := some "https://3bridges.org.au/" },
   { name := some "Shopfront Arts Co-op",
     lat := some (-33.9545 : Rat), lng := some (151.1215 : Rat),
     community := some "Arts",
     languages := some ["English"],
     description := some
       [("English", "A space for young people to create and experience art."),
        ("Mandarin", "一个让年轻人创作和体验艺术的空间。"),
        ("Cantonese", "一個俾年輕人創作同體驗藝術嘅空間。"),
        ("Nepali", "युवाहरूलाई कला सिर्जना गर्न र अनुभव गर्नका लागि एउटा ठाउँ।"),
        ("Italian", "Uno spazio per i giovani per creare e sperimentare l\x27arte."),
        ("Greek", "Ένας χώρος για νέους να δημιουργήσουν και να βιώσουν την τέχνη.")],
     address := some "88 Carlton Parade, Carlton",
     phone := some "(02) 9588 3948",
     email := some "hello@shopfront.org.au",
     website := some "https://shopfront.org.au/" },
   { name := some "Bus Stop Films",
     lat := some (-33.9545 : Rat), lng := some (151.1215 : Rat),
     community := some "Arts",
     languages := some ["English"],
     description := some
       [("English", "An accessible film studies program for people with disabilities."),
        ("Mandarin", "为残疾人士提供的无障碍电影研究项目。")],
     address := some "86-88 Carlton Parade, Carlton",
     phone := some "(02) 7204 5010",
     email := some "hello@busstopfilms.com.au",
     website := some "https://www.busstopfilms.com.au/" },
   { name := some "PCYC St George",
     lat := some (-33.95 : Rat), lng := some (151.15 : Rat),
     community := some "Youth",
     languages := some ["English"],
     description := some
       [("English", "Youth and community programs."),
        ("Mandarin", "青年和社区项目。"),
        ("Cantonese", "青年同社區計劃。"),
        ("Nepali", "युवा र सामुदायिक कार्यक्रमहरू।"),
        ("Italian", "Programmi per i giovani e la comunità."),
        ("Greek", "Προγράμματα για νέους και την κοινότητα.")],
     address := some "McCarthy Reserve, 9 Ador Avenue, Rockdale",
     phone := some "(02) 9567 0408",
     email := some "stgeorge@pcycnsw.org.au",
     website := some "https://www.pcycnsw.org.au/st-george" },
   { name := some "Headspace Hurstville",
     lat := some (-33.967 : Rat), lng := some (151.104 : Rat),
     community := some "Health & Wellbeing",
     languages := some ["English"],
     description := some
       [("English", "Youth mental health services."),
        ("Mandarin", "青年心理健康服务。")],
     address := some "41 Dora Street, Hurstville",
     phone := some "(02) 8048 3350",
     email := some "headspace.hurstville@stride.com.au",
     website := some "https://headspace.org.au/headspace-centres/hurstville/" },
   { name := some "Lifeline",
     lat := some (-33.8688 : Rat), lng := some (151.2093 : Rat),
     community := some "Health & Wellbeing",
     languages := some ["English"],
     description := some
       [("English", "24/7 crisis support and suicide prevention."),
        ("Mandarin", "24/7 危机支持和自杀预防。")],
     address := some "National Service - Multiple Locations",
     phone := some "13 11 14",
     email := some "info@lifeline.org.au",
     website := some "https://www.lifeline.org.au/" },
   { name := some "Carers NSW",
     lat := some (-33.8394 : Rat), lng := some (151.2081 : Rat),
     community := some "Carers Support Services",
     languages := some ["English"],
     description := some
       [("English", "The peak non-government organisation for carers in NSW."),
        ("Mandarin", "新南威尔士州照顾者的最高非政府组织。")],
     address := some "Level 10/213 Miller St, North Sydney",
     phone := some "(02) 9280 4744",
     email := some "contact@carersnsw.org.au",
     website := some "https://www.carersnsw.org.au/" },
   { name := some "St George Family Support Services",
     lat := some (-33.959 : Rat), lng := some (151.129 : Rat),
     community := some "Children & Families",
     languages := some ["English"],
     description := some
       [("English", "Provides support to vulnerable children, young people, and families."),
        ("Mandarin", "为弱势儿童、青少年和家庭提供支持。")],
     address := some "42 Jubilee Avenue, Carlton",
     phone := some "(02) 9553 9100",
     email := some "information@sgfss.org.au",
     website := some "https://www.sgfss.org.au/" },
   { name := some "Tresillian",
     lat := some (-33.8688 : Rat), lng := some (151.2093 : Rat),
     community := some "Children & Families",
     languages := some ["English"],
     description := some
       [("English", "Early parenting support for families with young children."),
        ("Mandarin", "为有幼儿的家庭提供早期育儿支持。")],
     address := some "Multiple Locations - Sydney Metro",
     phone := some "1300 272 736",
     email := some "enquiries@tresillian.org.au",
     website := some "https://www.tresillian.org.au/" },
   { name := some "3Bridges Community",
     lat := some (-33.973 : Rat), lng := some (151.09 : Rat),
     community := some "Community Support",
     languages := some ["English"],
     description := some
       [("English", "Offers a wide range of services for all ages and cultures."),
        ("Mandarin", "为所有年龄和文化的人提供广泛的服务。")],
     address := some "643/643A King Georges Road, Penshurst",
     phone := some "1300 327 434",
     email := some "admin@3bridges.org.au",
     website := some "https://3bridges.org.au/" },
   { name := some "Northcott",
     lat := some (-33.967 : Rat), lng := some (151.104 : Rat),
     community := some "Disability Services",
     languages := some ["English"],
     description := some
       [("English", "Supports people with disability to live the life they choose."),
        ("Mandarin", "支持残疾人士过上他们选择的生活。")],
     address := some "Level 2, Suite 2, 12 Butler Road, Hurstville",
     phone := some "1800 818 286",
     email := some "northcott@northcott.com.au",
     website := some "https://northcott.com.au/" },
   { name := some "1800RESPECT",
     lat := some (-33.8688 : Rat), lng := some (151.2093 : Rat),
     community := some "Domestic Violence",
     languages := some ["English"],
     description := some
       [("English", "National sexual assault, domestic family violence counselling service."),
        ("Mandarin", "国家性侵犯、家庭暴力咨询服务。")],
     address := some "National Service - Phone & Online",
     phone := some "1800 737 732",
     email := some "info@1800respect.org.au",
     website := some "https://www.1800respect.org.au/" },
   { name := some "Salvation Army Hurstville",
     lat := some (-33.967 : Rat), lng := some (151.104 : Rat),
     community := some "Food & Emergency Support",
     languages := some ["English"],
     description := some
       [("English", "Emergency relief and community support."),
        ("Mandarin", "紧急救援和社区支持。")],
     address := some "Cnr Bond and Dore Streets, Hurstville",
     phone := some "(02) 9570 2617",
     email := some "hurstvillesalvos@salvationarmy.org.au",
     website := some "https://www.salvationarmy.org.au/hurstville" },
   { name := some "Bayside Council",
     lat := some (-33.96 : Rat), lng := some (151.15 : Rat),
     community := some "Government Departments",
     languages := some ["English"],
     description := some
       [("English", "Local government services."),
        ("Mandarin", "地方政府服务。")],
     address := some "444-446 Princes Highway, Rockdale",
     phone := some "1300 581 299",
     email := some "council@bayside.nsw.gov.au",
     website := some "https://www.bayside.nsw.gov.au/" },
   { name := some "ACON",
     lat := some (-33.88 : Rat), lng := some (151.21 : Rat),
     community := some "LGBTQIA+",
     languages := some ["English"],
     description := some
       [("English", "Health promotion organisation for LGBTQIA+ people."),
        ("Mandarin", "为 LGBTQIA+ 人士提供健康促进的组织。")],
     address := some "414 Elizabeth Street, Surry Hills",
     phone := some "1800 063 060",
     email := some "acon@acon.org.au",
     website := some "https://www.acon.org.au/" },
   { name := some "Advance Diversity Services",
     lat := some (-33.967 : Rat), lng := some (151.104 : Rat),
     community := some "Multicultural",
     languages := some ["English"],
     description := some
       [("English", "Services for culturally and linguistically diverse communities."),
        ("Mandarin", "为文化和语言多样化的社区提供服务。")],
     address := some "Suite 231 & 232 (Building 2/Level 3), 7-11 The Avenue, Hurstville",
     phone := some "(02) 9597 5455",
     email := some "info@advancediversity.org.au",
     website := some "https://www.advancediversity.org.au/" }]

/-- Whether the first list is an initial segment of the second, on
character lists. -/
def charsStartWith : List Char → List Char → Bool
  | [], _ => true
  | _ :: _, [] => false
  | p :: ps, c :: cs => p == c && charsStartWith ps cs

/-- Whether the pattern occurs as a contiguous substring of the
subject, on character lists. -/
def containsSub (pat : List Char) : List Char → Bool
  | [] => pat.isEmpty
  | c :: rest => charsStartWith pat (c :: rest) || containsSub pat rest

/-- Whether a warning string is the aggregated duplicate-name warning
(it starts with `Duplicate names found: `; per-entry warnings all start
with `Partner `). -/
def isDupWarning (w : String) : Bool :=
  charsStartWith dupWarningPrefix.data w.data

/-- All checks of `validatePartnerData` passing for one entry: with this,
the entry contributes no error at any index. -/
def passesChecks (websiteParses : String → Bool) (p : Partner) : Prop :=
  truthyStr p.name = true ∧ truthyNum p.lat = true ∧ truthyNum p.lng = true ∧
  truthyStr p.community = true ∧ truthyArr p.languages = true ∧
  truthyObj p.description = true ∧ truthyStr p.address = true ∧
  truthyStr p.phone = true ∧ truthyStr p.email = true ∧
  truthyStr p.website = true ∧ coordsAreNumbers p = true ∧
  communityValid p = true ∧ emailFormatBad p = false ∧
  websiteBad websiteParses p = false ∧ englishDescriptionOk p = true

instance (websiteParses : String → Bool) (p : Partner) :
    Decidable (passesChecks websiteParses p) := by
  unfold passesChecks
  infer_instance

/-- All checks of `validatePartnerData` except the presence of `email`
passing for one entry. -/
def passesChecksExceptEmail (websiteParses : String → Bool) (p : Partner) : Prop :=
  truthyStr p.name = true ∧ truthyNum p.lat = true ∧ truthyNum p.lng = true ∧
  truthyStr p.community = true ∧ truthyArr p.languages = true ∧
  truthyObj p.description = true ∧ truthyStr p.address = true ∧
  truthyStr p.phone = true ∧
  truthyStr p.website = true ∧ coordsAreNumbers p = true ∧
  communityValid p = true ∧
  websiteBad websiteParses p = false ∧ englishDescriptionOk p = true

instance (websiteParses : String → Bool) (p : Partner) :
    Decidable (passesChecksExceptEmail websiteParses p) := by
  unfold passesChecksExceptEmail
  infer_instance

/-- The test-scenario organisation of the specification, with its
category set to Youth and only the baseline language listed. -/
def specimenYouth : Organisation :=
  { name := "Test Org", lat := (-33.9 : Rat), lng := (151.1 : Rat),
    community := "Youth", languages := ["English"],
    description := [("English", "desc")], address := "1 St",
    phone := "123", email := "a@b.com", website := "https://example.org" }

/-- A second organisation in the Arts category whose languages do not
include the baseline. -/
def specimenArts : Organisation :=
  { name := "Arts Org", lat := (-33.9 : Rat), lng := (151.1 : Rat),
    community := "Arts", languages := ["Greek"],
    description := [("English", "arts desc")], address := "2 St",
    phone := "456", email := "b@c.com", website := "https://example.org" }

/-- A two-entry dataset exercising the projection inclusion law. -/
def specimenDataset : List Organisation := [specimenYouth, specimenArts]

/-- A description object whose entry for Greek is present but empty: the
input separating presence from JavaScript truthiness. -/
def descWithEmptyGreek : List (String × String) :=
  [("Greek", ""), ("English", "Community support description.")]

/-- A fully well-formed partner entry. -/
def goodPartner : Partner :=
  { name := some "Good Org", lat := some (1 : Rat), lng := some (2 : Rat),
    community := some "Arts", languages := some ["English"],
    description := some [("English", "desc")], address := some "1 St",
    phone := some "123", email := some "a@b.com",
    website := some "https://example.org/" }

/-- A partner entry that is well-formed except that its `email` property
is absent. -/
def missingEmailPartner : Partner :=
  { name := some "No Email Org", lat := some (1 : Rat), lng := some (2 : Rat),
    community := some "Youth", languages := some ["English"],
    description := some [("English", "desc")], address := some "2 St",
    phone := some "456", email := none,
    website := some "https://example.org/" }

/-- Two partner entries sharing the same name, for the duplicate-warning
scenario. -/
def dupPartnerA : Partner :=
  { name := some "Twin Org", lat := some (1 : Rat), lng := some (2 : Rat),
    community := some "Arts", languages := some ["English"],
    description := some [("English", "first")], address := some "1 St",
    phone := some "123", email := some "a@b.com",
    website := some "https://example.org/" }

/-- The second entry with the duplicated name. -/
def dupPartnerB : Partner :=
  { name := some "Twin Org", lat := some (3 : Rat), lng := some (4 : Rat),
    community := some "Youth", languages := some ["English"],
    description := some [("English", "second")], address := some "2 St",
    phone := some "456", email := some "b@c.com",
    website := some "https://example.org/" }

/-- A small concrete behaviour of the browser URL constructor, used to
instantiate theorems that quantify over it: one https URL that
canonicalises with a trailing slash, one javascript-scheme URL, and
everything else failing to parse. -/
def parseURLDemo : String → Option ParsedURL := fun s =>
  if s = "https://example.org" then
    some { protocol := "https:", href := "https://example.org/" }
  else if s = "javascript:alert(1)" then
    some { protocol := "javascript:", href := "javascript:alert(1)" }
  else none

theorem list_contains_iff_mem {α : Type} [BEq α] [LawfulBEq α]
    (l : List α) (a : α) : l.contains a = true ↔ a ∈ l :=
  List.elem_iff

theorem contains_http_or_https (pr : String) :
    (["http:", "https:"].contains pr = true) ↔ (pr = "http:" ∨ pr = "https:") := by
  rw [show (["http:", "https:"].contains pr) = List.elem pr ["http:", "https:"] from rfl,
    List.elem_iff]
  simp

theorem mem_foldl_cacheDelete :
    ∀ (l s : List String) (n : String),
      n ∈ l.foldl cacheDelete s ↔ n ∈ s ∧ n ∉ l := by
  intro l
  induction l with
  | nil => intro s n; simp
  | cons x xs ih =>
    intro s n
    simp only [List.foldl_cons]
    rw [ih]
    simp only [cacheDelete, List.mem_filter, List.mem_cons,
      Bool.not_eq_eq_eq_not, Bool.not_true, beq_eq_false_iff_ne, ne_eq]
    tauto

/-- C1: for every dataset, selected language and selected category, the
projection includes an entry iff its `community` equals the selected
category and the selected language or the baseline language English is in
its `languages`; in particular an entry with languages `["English"]` and
category Youth appears in the projection for (Greek, Youth) but not in
the projection for (Greek, Arts). -/
theorem C1_projection_inclusion_law :
    (∀ (dataset : List Organisation) (lang cat : String) (p : Organisation),
      p ∈ filterPartners dataset lang cat ↔
        p ∈ dataset ∧ (p.community = cat ∧
          (lang ∈ p.languages ∨ "English" ∈ p.languages))) ∧
    specimenYouth ∈ filterPartners specimenDataset "Greek" "Youth" ∧
    specimenYouth ∉ filterPartners specimenDataset "Greek" "Arts" := by
  refine ⟨?_, ?_, ?_⟩
  · intro dataset lang cat p
    simp only [filterPartners, List.mem_filter, Bool.and_eq_true, Bool.or_eq_true,
      list_contains_iff_mem, beq_iff_eq]
    tauto
  · rw [show filterPartners specimenDataset "Greek" "Youth" = [specimenYouth] from rfl]
    exact List.mem_singleton.mpr rfl
  · intro hmem
    rw [show filterPartners specimenDataset "Greek" "Arts" = [specimenArts] from rfl,
      List.mem_singleton] at hmem
    have hname := congrArg Organisation.name hmem
    simp only [specimenYouth, specimenArts] at hname
    exact absurd hname (by decide)

/-- C7: the projection is a stable filter: its output is a sublist of the
dataset (original relative order, no resorting), two calls with identical
arguments give identical output, and the projection is idempotent. -/
theorem C7_projection_stable_deterministic :
    ∀ (dataset : List Organisation) (lang cat : String),
      (filterPartners dataset lang cat).Sublist dataset ∧
      filterPartners dataset lang cat = filterPartners dataset lang cat ∧
      filterPartners (filterPartners dataset lang cat) lang cat =
        filterPartners dataset lang cat := by
  intro dataset lang cat
  refine ⟨List.filter_sublist dataset, rfl, ?_⟩
  simp [filterPartners, List.filter_filter]

/-- C5: after the activate handler runs, a cache name remains in storage
iff it was there before and equals the current version tag `CACHE_NAME`;
in particular with versions v0 and v1-current in storage, only the
current one survives. -/
theorem C5_activate_prunes_stale_caches :
    (∀ (storage : List String) (n : String),
      n ∈ activateHandler storage ↔ n ∈ storage ∧ n = CACHE_NAME) ∧
    activateHandler ["community-resources-v0", "community-resources-v1"] =
      ["community-resources-v1"] := by
  refine ⟨?_, by decide⟩
  intro storage n
  unfold activateHandler
  rw [mem_foldl_cacheDelete]
  simp only [List.mem_filter, Bool.not_eq_eq_eq_not, Bool.not_true,
    beq_eq_false_iff_ne, ne_eq, not_and]
  by_cases hn : n = CACHE_NAME <;> simp [hn]

/-- C8 counterexample: a description object whose entry for the selected
language is present but empty; the code shows the English text, not the
present selected-language text, refuting the claim as stated. -/
theorem C8_counterexample_present_but_empty :
    (jsLookup descWithEmptyGreek "Greek").isSome = true ∧
    chooseDescription descWithEmptyGreek "Greek" ≠
      jsLookup descWithEmptyGreek "Greek" := by
  decide

/-- C8 (amended): the description shown is the entry's description for
the selected language if that description is present and non-empty, and
otherwise (absent or empty) the baseline English description. -/
theorem C8_description_fallback :
    ∀ (d : List (String × String)) (lang : String),
      (∃ s, jsLookup d lang = some s ∧ s ≠ "" ∧
        chooseDescription d lang = some s) ∨
      ((jsLookup d lang = none ∨ jsLookup d lang = some "") ∧
        chooseDescription d lang = jsLookup d "English") := by
  intro d lang
  cases h : jsLookup d lang with
  | none =>
    right
    exact ⟨Or.inl rfl, by simp [chooseDescription, h]⟩
  | some s =>
    by_cases hs : s = ""
    · right
      subst hs
      exact ⟨Or.inr rfl, by simp [chooseDescription, h]⟩
    · left
      exact ⟨s, rfl, hs, by simp [chooseDescription, h, hs]⟩

/-- C2: `sanitizeURL` returns a non-empty string only when the input is a
string parsing as a URL with scheme http or https, in which case it
returns the canonical string form; any other scheme, a failed parse, or a
non-string input gives the empty string. -/
theorem C2_sanitizeURL_scheme_gate :
    ∀ (parseURL : String → Option ParsedURL),
      (∀ v : JsValue, sanitizeURL parseURL v ≠ "" →
        ∃ url parsed, v = JsValue.str url ∧ parseURL url = some parsed ∧
          (parsed.protocol = "http:" ∨ parsed.protocol = "https:") ∧
          sanitizeURL parseURL v = parsed.href) ∧
      (∀ url parsed, parseURL url = some parsed →
        (parsed.protocol = "http:" ∨ parsed.protocol = "https:") →
        sanitizeURL parseURL (JsValue.str url) = parsed.href) ∧
      (∀ url parsed, parseURL url = some parsed →
        ¬(parsed.protocol = "http:" ∨ parsed.protocol = "https:") →
        sanitizeURL parseURL (JsValue.str url) = "") ∧
      (∀ url, parseURL url = none →
        sanitizeURL parseURL (JsValue.str url) = "") ∧
      sanitizeURL parseURL JsValue.other = "" := by
  intro parseURL
  refine ⟨?_, ?_, ?_, ?_, rfl⟩
  · intro v hne
    match v with
    | JsValue.other => exact absurd rfl hne
    | JsValue.str url =>
      cases hp : parseURL url with
      | none => simp [sanitizeURL, hp] at hne
      | some parsed =>
        by_cases hpr : parsed.protocol = "http:" ∨ parsed.protocol = "https:"
        · refine ⟨url, parsed, rfl, hp, hpr, ?_⟩
          simp only [sanitizeURL, hp]
          rw [if_pos ((contains_http_or_https parsed.protocol).mpr hpr)]
        · exfalso
          apply hne
          simp only [sanitizeURL, hp]
          rw [if_neg (fun hc => hpr ((contains_http_or_https parsed.protocol).mp hc))]
  · intro url parsed hp hpr
    simp only [sanitizeURL, hp]
    rw [if_pos ((contains_http_or_https parsed.protocol).mpr hpr)]
  · intro url parsed hp hpr
    simp only [sanitizeURL, hp]
    rw [if_neg (fun hc => hpr ((contains_http_or_https parsed.protocol).mp hc))]
  · intro url hp
    simp [sanitizeURL, hp]

/-- C2, witness: the theorem applied to a concrete URL-constructor
behaviour, a concrete https URL (canonical form returned), a concrete
javascript-scheme URL, an unparseable string and a non-string input. -/
theorem C2_sanitizeURL_scheme_gate_witness :
    sanitizeURL parseURLDemo (JsValue.str "https://example.org") =
      "https://example.org/" ∧
    sanitizeURL parseURLDemo (JsValue.str "javascript:alert(1)") = "" ∧
    sanitizeURL parseURLDemo (JsValue.str "::nonsense") = "" ∧
    sanitizeURL parseURLDemo JsValue.other = "" := by
  refine ⟨?_, ?_, ?_, ?_⟩
  · exact (C2_sanitizeURL_scheme_gate parseURLDemo).2.1 "https://example.org"
      { protocol := "https:", href := "https://example.org/" }
      (by decide) (Or.inr rfl)
  · exact (C2_sanitizeURL_scheme_gate parseURLDemo).2.2.1 "javascript:alert(1)"
      { protocol := "javascript:", href := "javascript:alert(1)" }
      (by decide) (by decide)
  · exact (C2_sanitizeURL_scheme_gate parseURLDemo).2.2.2.1 "::nonsense" (by decide)
  · exact (C2_sanitizeURL_scheme_gate parseURLDemo).2.2.2.2

/-- C4: `generateQrCode` always returns a DOM element (an image or the
placeholder; the try/catch makes it total, never raising to the caller),
and whenever sanitization yields the empty string or the encoding step
fails, the result is the placeholder whose `title` text carries the
original raw URL. -/
theorem C4_generateQrCode_total_placeholder :
    ∀ (parseURL : String → Option ParsedURL) (renderQR : String → Option String)
      (url : String),
      ((∃ src alt, generateQrCode parseURL renderQR url = QrElement.img src alt) ∨
        generateQrCode parseURL renderQR url = qrPlaceholder url) ∧
      ((sanitizeURL parseURL (JsValue.str url) = "" ∨
        renderQR (sanitizeURL parseURL (JsValue.str url)) = none) →
        generateQrCode parseURL renderQR url =
          QrElement.placeholderDiv "QR Code" ("QR code for " ++ url) ∧
        ∃ pre, ("QR code for " ++ url) = pre ++ url) := by
  intro parseURL renderQR url
  constructor
  · by_cases hs : sanitizeURL parseURL (JsValue.str url) = ""
    · right
      simp [generateQrCode, hs]
    · cases hr : renderQR (sanitizeURL parseURL (JsValue.str url)) with
      | some dataURL =>
        left
        refine ⟨dataURL, "QR code for " ++ sanitizeURL parseURL (JsValue.str url), ?_⟩
        simp [generateQrCode, hs, hr]
      | none =>
        right
        simp [generateQrCode, hs, hr]
  · intro hfail
    refine ⟨?_, "QR code for ", rfl⟩
    cases hfail with
    | inl hs => simp [generateQrCode, hs, qrPlaceholder]
    | inr hr =>
      by_cases hs : sanitizeURL parseURL (JsValue.str url) = ""
      · simp [generateQrCode, hs, qrPlaceholder]
      · simp [generateQrCode, hs, hr, qrPlaceholder]

/-- C4, witness: with a URL constructor that rejects the input (so
sanitization yields the empty string), the generator returns the
placeholder carrying the raw input in its title. -/
theorem C4_generateQrCode_total_placeholder_witness :
    generateQrCode (fun _ => none) (fun _ => none) "notaurl" =
      QrElement.placeholderDiv "QR Code" ("QR code for " ++ "notaurl") :=
  ((C4_generateQrCode_total_placeholder (fun _ => none) (fun _ => none)
    "notaurl").2 (Or.inl rfl)).1

theorem stripJsProtoAux_sublist :
    ∀ (n : Nat) (cs : List Char), (stripJsProtoAux n cs).Sublist cs := by
  intro n
  induction n with
  | zero => intro cs; simp [stripJsProtoAux]
  | succ n ih =>
    intro cs
    match cs with
    | [] => simp [stripJsProtoAux]
    | c :: rest =>
      cases h : matchCI jsProtoPat (c :: rest) with
      | some rest' =>
        simp only [stripJsProtoAux, h]
        exact (ih rest').trans (matchCI_suffix h)
      | none =>
        simp only [stripJsProtoAux, h]
        exact (ih rest).cons₂ c

theorem stripOnHandlersAux_sublist :
    ∀ (n : Nat) (cs : List Char), (stripOnHandlersAux n cs).Sublist cs := by
  intro n
  induction n with
  | zero => intro cs; simp [stripOnHandlersAux]
  | succ n ih =>
    intro cs
    match cs with
    | [] => simp [stripOnHandlersAux]
    | c :: rest =>
      cases h : matchOnHandler (c :: rest) with
      | some tail =>
        simp only [stripOnHandlersAux, h]
        exact (ih tail).trans (matchOnHandler_suffix h).1
      | none =>
        simp only [stripOnHandlersAux, h]
        exact (ih rest).cons₂ c

theorem trimChars_sublist (cs : List Char) : (trimChars cs).Sublist cs := by
  unfold trimChars
  have h1 : (cs.dropWhile Char.isWhitespace).Sublist cs :=
    List.dropWhile_sublist Char.isWhitespace
  have h2 : (((cs.dropWhile Char.isWhitespace).reverse.dropWhile
      Char.isWhitespace)).Sublist (cs.dropWhile Char.isWhitespace).reverse :=
    List.dropWhile_sublist Char.isWhitespace
  have h3 := h2.reverse
  rw [List.reverse_reverse] at h3
  exact h3.trans h1

/-- C6: for every string input the output of `sanitizeText` contains no
angle bracket; the concrete payload `<img onerror=x>` sanitizes to
`img x`, which contains neither `<`, `>`, nor the substring `onerror=`;
and every non-string input sanitizes to the empty string. -/
theorem C6_sanitizeText_strips_vectors :
    (∀ v : JsValue, '<' ∉ (sanitizeText v).data ∧ '>' ∉ (sanitizeText v).data) ∧
    sanitizeText (JsValue.str "<img onerror=x>") = "img x" ∧
    containsSub "onerror=".data
      (sanitizeText (JsValue.str "<img onerror=x>")).data = false ∧
    sanitizeText JsValue.other = "" := by
  refine ⟨?_, by decide, by decide, rfl⟩
  intro v
  match v with
  | JsValue.other => exact ⟨by decide, by decide⟩
  | JsValue.str s =>
    have hchain : (sanitizeText (JsValue.str s)).data.Sublist (removeAngle s.data) := by
      show (trimChars (stripOnHandlers (stripJsProto (removeAngle s.data)))).Sublist
        (removeAngle s.data)
      exact (trimChars_sublist _).trans ((stripOnHandlersAux_sublist _ _).trans
        (stripJsProtoAux_sublist _ _))
    constructor
    · intro hmem
      have := hchain.subset hmem
      simp [removeAngle, List.mem_filter] at this
    · intro hmem
      have := hchain.subset hmem
      simp [removeAngle, List.mem_filter] at this

theorem entryErrors_eq_nil {websiteParses : String → Bool} {p : Partner}
    (h : passesChecks websiteParses p) (i : Nat) :
    entryErrors websiteParses i p = [] := by
  obtain ⟨h1, h2, h3, h4, h5, h6, h7, h8, h9, h10, h11, h12, h13, h14, h15⟩ := h
  simp [entryErrors, requiredFieldErrors, fieldChecks,
    h1, h2, h3, h4, h5, h6, h7, h8, h9, h10, h11, h12, h13, h14, h15]

theorem entryErrors_missing_email {websiteParses : String → Bool} {p : Partner}
    (hmail : p.email = none) (h : passesChecksExceptEmail websiteParses p)
    (i : Nat) :
    entryErrors websiteParses i p =
      [entryTag i (nameOrUnknown p) ++ "Missing email"] := by
  obtain ⟨h1, h2, h3, h4, h5, h6, h7, h8, h9, h10, h11, h12, h13⟩ := h
  have hm : ("Missing " ++ "email" : String) = "Missing email" := rfl
  have hemail : truthyStr p.email = false := by rw [hmail]; rfl
  have hefmt : emailFormatBad p = false := by simp [emailFormatBad, hmail]
  simp [entryErrors, requiredFieldErrors, fieldChecks, hemail, hefmt,
    h1, h2, h3, h4, h5, h6, h7, h8, h9, h10, h11, h12, h13,
    String.append_assoc, hm]

theorem collectErrors_eq_nil {websiteParses : String → Bool} {l : List Partner}
    (h : ∀ q ∈ l, passesChecks websiteParses q) :
    ∀ k, collectErrors websiteParses k l = [] := by
  induction l with
  | nil => intro k; rfl
  | cons p ps ih =>
    intro k
    simp only [collectErrors]
    rw [entryErrors_eq_nil (h p (by simp)) k,
      ih (fun q hq => h q (by simp [hq])) (k + 1)]
    rfl

theorem collectErrors_append (websiteParses : String → Bool) :
    ∀ (l₁ l₂ : List Partner) (k : Nat),
      collectErrors websiteParses k (l₁ ++ l₂) =
        collectErrors websiteParses k l₁ ++
          collectErrors websiteParses (k + l₁.length) l₂ := by
  intro l₁
  induction l₁ with
  | nil => intro l₂ k; simp [collectErrors]
  | cons p ps ih =>
    intro l₂ k
    simp only [List.cons_append, collectErrors, List.append_eq]
    rw [ih]
    have hidx : k + 1 + ps.length = k + (p :: ps).length := by
      simp only [List.length_cons]
      omega
    rw [hidx, List.append_assoc]

theorem validate_isValid_iff (websiteParses : String → Bool) (ps : List Partner) :
    (validatePartnerData websiteParses ps).isValid = true ↔
      (validatePartnerData websiteParses ps).errors = [] := by
  simp [validatePartnerData, List.length_eq_zero]

/-- C3: in general `isValid` is true iff the error list is empty; and for
every dataset in which one entry lacks the `email` property and every
entry passes all other checks, the validator reports exactly one error,
that error carrying the faulty entry's index, its name and the missing
field, and `isValid` is false. -/
theorem C3_validator_missing_email :
    (∀ (websiteParses : String → Bool) (ps : List Partner),
      (validatePartnerData websiteParses ps).isValid = true ↔
        (validatePartnerData websiteParses ps).errors = []) ∧
    (∀ (websiteParses : String → Bool) (front : List Partner) (p : Partner)
      (back : List Partner),
      p.email = none →
      passesChecksExceptEmail websiteParses p →
      (∀ q ∈ front, passesChecks websiteParses q) →
      (∀ q ∈ back, passesChecks websiteParses q) →
      (validatePartnerData websiteParses (front ++ p :: back)).errors =
        [entryTag front.length (nameOrUnknown p) ++ "Missing email"] ∧
      (validatePartnerData websiteParses (front ++ p :: back)).isValid = false) := by
  constructor
  · exact validate_isValid_iff
  · intro websiteParses front p back hmail hp hfront hback
    have herr : (validatePartnerData websiteParses (front ++ p :: back)).errors =
        [entryTag front.length (nameOrUnknown p) ++ "Missing email"] := by
      show collectErrors websiteParses 0 (front ++ p :: back) = _
      rw [collectErrors_append websiteParses front (p :: back) 0]
      rw [collectErrors_eq_nil hfront 0]
      simp only [collectErrors]
      rw [collectErrors_eq_nil hback, entryErrors_missing_email hmail hp]
      simp
    refine ⟨herr, ?_⟩
    have hnv : ¬ (validatePartnerData websiteParses (front ++ p :: back)).isValid = true := by
      rw [validate_isValid_iff, herr]
      simp
    exact Bool.not_eq_true _ ▸ hnv

/-- C3, witness: a concrete two-entry dataset whose second entry lacks
`email`; the validator reports exactly the one error naming index 1 and
the entry, and `isValid` is false. -/
theorem C3_validator_missing_email_witness :
    (validatePartnerData (fun _ => true)
        ([goodPartner] ++ missingEmailPartner :: [])).errors =
      [entryTag 1 (nameOrUnknown missingEmailPartner) ++ "Missing email"] ∧
    (validatePartnerData (fun _ => true)
        ([goodPartner] ++ missingEmailPartner :: [])).isValid = false :=
  C3_validator_missing_email.2 (fun _ => true) [goodPartner] missingEmailPartner []
    rfl (by decide) (by decide) (by decide)

theorem indexOf_le_of_get :
    ∀ (l : List (Option String)) (i : Nat) (h : i < l.length),
      jsIndexOf l (l.get ⟨i, h⟩) ≤ i := by
  intro l
  induction l with
  | nil => intro i h; simp at h
  | cons x xs ih =>
    intro i h
    cases i with
    | zero =>
      show jsIndexOf (x :: xs) x ≤ 0
      simp only [jsIndexOf]
      rw [List.indexOf_cons, beq_self_eq_true, cond_true]
    | succ i =>
      have hi : i < xs.length := by simpa using h
      have hget : ((x :: xs).get ⟨i + 1, h⟩) = xs.get ⟨i, hi⟩ := rfl
      rw [hget]
      simp only [jsIndexOf, List.indexOf_cons]
      cases hx : x == xs.get ⟨i, hi⟩ with
      | true => simp
      | false =>
        simp only [cond_false]
        have := ih i hi
        simp only [jsIndexOf] at this
        omega

theorem mem_dupNamesAux :
    ∀ (allNames l : List (Option String)) (k i : Nat) (h : i < l.length),
      jsIndexOf allNames (l.get ⟨i, h⟩) ≠ k + i →
      l.get ⟨i, h⟩ ∈ dupNamesAux allNames k l := by
  intro allNames l
  induction l with
  | nil => intro k i h; simp at h
  | cons x xs ih =>
    intro k i h hne
    cases i with
    | zero =>
      simp only [List.get, dupNamesAux]
      rw [if_pos (by simpa using hne)]
      simp
    | succ i =>
      have hi : i < xs.length := by simpa using h
      have hget : ((x :: xs).get ⟨i + 1, h⟩) = xs.get ⟨i, hi⟩ := rfl
      rw [hget] at hne ⊢
      simp only [dupNamesAux, List.mem_append]
      right
      apply ih (k + 1) i hi
      intro hc
      apply hne
      rw [hc]
      omega

theorem charsStartWith_append (xs ys : List Char) :
    charsStartWith xs (xs ++ ys) = true := by
  induction xs with
  | nil => rfl
  | cons x xs ih => simp [charsStartWith, ih]

theorem isDupWarning_dupMsg (s : String) :
    isDupWarning (dupWarningPrefix ++ s) = true := by
  unfold isDupWarning
  rw [String.data_append]
  exact charsStartWith_append _ _

theorem isDupWarning_entryTag_false (i : Nat) (who sfx : String) :
    isDupWarning (entryTag i who ++ sfx) = false := by
  unfold isDupWarning entryTag
  simp only [String.data_append, List.append_assoc]
  rw [show dupWarningPrefix.data = 'D' :: "uplicate names found: ".data from rfl]
  simp only [List.cons_append, charsStartWith]
  rw [show (('D' : Char) == 'P') = false from rfl, Bool.false_and]

theorem eq_of_mem_entryWarnings {k : Nat} {p : Partner} {w : String}
    (h : w ∈ entryWarnings k p) :
    w = entryTag k (jsToStr p.name) ++ "No languages specified" := by
  unfold entryWarnings at h
  split at h
  · split at h
    · simpa using h
    · simp at h
  · simpa using h

theorem isDupWarning_collectWarnings :
    ∀ (l : List Partner) (k : Nat) (w : String),
      w ∈ collectWarnings k l → isDupWarning w = false := by
  intro l
  induction l with
  | nil => intro k w hw; simp [collectWarnings] at hw
  | cons p ps ih =>
    intro k w hw
    simp only [collectWarnings, List.mem_append] at hw
    cases hw with
    | inl h =>
      rw [eq_of_mem_entryWarnings h]
      exact isDupWarning_entryTag_false k (jsToStr p.name) "No languages specified"
    | inr h => exact ih (k + 1) w h

/-- C9: whenever two entries of the dataset share the same `name`, the
validator's warning list contains exactly one aggregated duplicate-name
warning (its last element), which lists the de-duplicated duplicated name
values; there is never one duplicate warning per duplicated entry. -/
theorem C9_single_aggregated_duplicate_warning :
    ∀ (websiteParses : String → Bool) (ps : List Partner) (i j : Nat)
      (hij : i < j) (hj : j < (ps.map Partner.name).length),
      (ps.map Partner.name).get ⟨i, Nat.lt_trans hij hj⟩ =
        (ps.map Partner.name).get ⟨j, hj⟩ →
      (validatePartnerData websiteParses ps).warnings.countP isDupWarning = 1 ∧
      (validatePartnerData websiteParses ps).warnings.getLast? =
        some (dupWarningPrefix ++
          joinNames (jsSetDedup (dupNames (ps.map Partner.name)))) := by
  intro websiteParses ps i j hij hj heq
  have hne : dupNames (ps.map Partner.name) ≠ [] := by
    have hidx : jsIndexOf (ps.map Partner.name)
        ((ps.map Partner.name).get ⟨j, hj⟩) ≤ i := by
      rw [← heq]
      exact indexOf_le_of_get _ i _
    unfold dupNames
    exact List.ne_nil_of_mem (mem_dupNamesAux _ _ 0 j hj (by omega))
  have hpos : (dupNames (ps.map Partner.name)).length > 0 :=
    List.length_pos.mpr hne
  have hw : (validatePartnerData websiteParses ps).warnings =
      collectWarnings 0 ps ++
        [dupWarningPrefix ++
          joinNames (jsSetDedup (dupNames (ps.map Partner.name)))] := by
    simp only [validatePartnerData]
    rw [if_pos hpos]
  rw [hw]
  constructor
  · rw [List.countP_append]
    have h0 : (collectWarnings 0 ps).countP isDupWarning = 0 :=
      List.countP_eq_zero.mpr (fun w hwmem => by
        simp [isDupWarning_collectWarnings ps 0 w hwmem])
    rw [h0]
    simp [List.countP_cons, isDupWarning_dupMsg]
  · exact List.getLast?_concat _

/-- C9, witness: two concrete entries sharing the name Twin Org; the
warnings hold exactly one aggregated duplicate warning. -/
theorem C9_single_aggregated_duplicate_warning_witness :
    (validatePartnerData (fun _ => true)
        [dupPartnerA, dupPartnerB]).warnings.countP isDupWarning = 1 ∧
    (validatePartnerData (fun _ => true)
        [dupPartnerA, dupPartnerB]).warnings.getLast? =
      some (dupWarningPrefix ++ joinNames (jsSetDedup (dupNames
        ([dupPartnerA, dupPartnerB].map Partner.name)))) :=
  C9_single_aggregated_duplicate_warning (fun _ => true) [dupPartnerA, dupPartnerB]
    0 1 (by decide) (by decide) (by decide)

/-- C10: the hardcoded dataset has 18 entries and passes validation with
no error and no warning, so `isValid` is true. -/
theorem C10_partners_dataset_validates :
    partners.length = 18 ∧
    validatePartnerData absoluteURLSyntaxOk partners =
      { errors := [], warnings := [], isValid := true } := by
  constructor
  · rfl
  · decide
